import Mathlib

/-!
Verification of the PubMed/PMC fetch pipeline
(`fetch.py` and `get_pmc_class.py`) against its specification.

The embedding models the upstream HTTP services as explicit response
functions (one response per request position).  Transient transport
failures on the search/convert path are retried without bound by the
code, so those loops are modelled over the sequence of *successful*
responses; the bounded-retry download path models every attempt's
response explicitly.
-/

namespace PMPipeline

/-! ## fetch.py : PubMedProcessor -/

/-- A credential pair: (email, api key). -/
abbrev Cred := String × String

/-- `PubMedProcessor.__init__` stores the molecule, the credential pool, and
one credential pair drawn at construction time into `self.email` /
`self.api_key`. -/
structure PubMedProcessor where
  molecule : String
  credentials : List Cred
  email : String
  api_key : String
deriving DecidableEq, Repr

/-- `random.choice(self.credentials)`: draws one element of the pool.  The
random index is supplied explicitly (`pick`), reduced modulo the pool size. -/
def get_random_credentials (credentials : List Cred) (pick : Nat) : Cred :=
  credentials.getD (pick % credentials.length) ("", "")

/-- `PubMedProcessor.__init__`: one credential draw happens here and is
stored in the processor's fields. -/
def PubMedProcessor.init (molecule : String) (credentials : List Cred)
    (pick : Nat) : PubMedProcessor :=
  let c := get_random_credentials credentials pick
  ⟨molecule, credentials, c.1, c.2⟩

/-- NCBI hard limit for esearch retstart (`MAX_PMID_LIMIT` in `fetch_all_pmids`). -/
def MAX_PMID_LIMIT : Nat := 9999

/-- The loop body of `fetch_all_pmids`.  `pages offset` is the `idlist`
obtained for the (eventually successful) request issued with
`retstart = offset`; the inner retry loop of the code repeats the same
request until it succeeds, so only the successful response is modelled.
The loop breaks on an empty page, and breaks after appending when the
advanced `start` reaches `MAX_PMID_LIMIT`.  Since `start` grows by at
least 1 per iteration and the loop stops once `start ≥ 9999`, a fuel of
10000 is never exhausted from `start = 0`. -/
def fetchGo (pages : Nat → List String) : Nat → Nat → List String
  | 0, _ => []
  | fuel + 1, start =>
    let batch := pages start
    if batch.isEmpty then []
    else if MAX_PMID_LIMIT ≤ start + batch.length then batch
    else batch ++ fetchGo pages fuel (start + batch.length)

/-- `PubMedProcessor.fetch_all_pmids`: collect all pages starting at offset 0. -/
def fetch_all_pmids (pages : Nat → List String) : List String :=
  fetchGo pages 10000 0

/-- The sequence of `retstart` offsets at which `fetch_all_pmids` issues its
page requests (one entry per outer-loop iteration, in order). -/
def fetchOffsetsGo (pages : Nat → List String) : Nat → Nat → List Nat
  | 0, _ => []
  | fuel + 1, start =>
    let batch := pages start
    if batch.isEmpty then [start]
    else if MAX_PMID_LIMIT ≤ start + batch.length then [start]
    else start :: fetchOffsetsGo pages fuel (start + batch.length)

/-- Offsets of all requests issued by `fetch_all_pmids`. -/
def fetchOffsets (pages : Nat → List String) : List Nat :=
  fetchOffsetsGo pages 10000 0

/-- The credential pair placed in the `params` dict of each page request of
`fetch_all_pmids`: the dict is built from `self.email` / `self.api_key`
on every iteration, with no draw from the pool inside the loop. -/
def fetchCredTraceGo (p : PubMedProcessor) (pages : Nat → List String) :
    Nat → Nat → List Cred
  | 0, _ => []
  | fuel + 1, start =>
    let used : Cred := (p.email, p.api_key)
    let batch := pages start
    if batch.isEmpty then [used]
    else if MAX_PMID_LIMIT ≤ start + batch.length then [used]
    else used :: fetchCredTraceGo p pages fuel (start + batch.length)

/-- Credentials attached to the page requests of a full `fetch_all_pmids` run. -/
def fetchCredTrace (p : PubMedProcessor) (pages : Nat → List String) : List Cred :=
  fetchCredTraceGo p pages 10000 0

/-- Modelled from the spec: "Each iteration requests a page of up to
`pageSize` results starting at `offset`, using a freshly drawn
Credential."  This variant draws a new credential from the pool (via the
pick stream `picks`) before every page request; it exists only to be
compared with `fetchCredTrace`, which follows the code. -/
def fetchCredTraceFreshGo (credentials : List Cred) (picks : Nat → Nat)
    (pages : Nat → List String) : Nat → Nat → Nat → List Cred
  | 0, _, _ => []
  | fuel + 1, start, k =>
    let used := get_random_credentials credentials (picks k)
    let batch := pages start
    if batch.isEmpty then [used]
    else if MAX_PMID_LIMIT ≤ start + batch.length then [used]
    else used :: fetchCredTraceFreshGo credentials picks pages fuel (start + batch.length) (k + 1)

/-- Fresh-draw credential trace from offset 0 (spec-modelled comparison point). -/
def fetchCredTraceFresh (credentials : List Cred) (picks : Nat → Nat)
    (pages : Nat → List String) : List Cred :=
  fetchCredTraceFreshGo credentials picks pages 10000 0 0

/-! ## Chunk partitioning

Both `convert_pmids_to_pmcids_df` and the downloaders partition their input
with `lst[i : i + size]` for `i in range(0, len(lst), size)`. -/

/-- Fueled worker for `chunksOf`; `fuel = l.length` always suffices when
`0 < n`, since each step removes at least one element from a nonempty list. -/
def chunksOfGo (n : Nat) : Nat → List α → List (List α)
  | 0, _ => []
  | _, [] => []
  | fuel + 1, l => l.take n :: chunksOfGo n fuel (l.drop n)

/-- Partition `l` into consecutive chunks of size `n` (last chunk may be
shorter), exactly as the Python slicing loop does. -/
def chunksOf (n : Nat) (l : List α) : List (List α) :=
  chunksOfGo n l.length l

/-! ## fetch.py : convert_pmids_to_pmcids_df -/

/-- One row of the mapping result: `{"PMID": pmid, "PMCID": record_map.get(pmid)}`.
`pmcid` is `none` when the lookup has no entry for the pmid (or the record's
pmcid field is null). -/
structure MappedId where
  pmid : String
  pmcid : Option String
deriving DecidableEq, Repr

/-- The dict comprehension
`{str(r.get("pmid")): r.get("pmcid") for r in data.get("records", [])}`
followed by `.get(pmid)`: later records with the same pmid overwrite earlier
ones, and a missing key yields `none`. -/
def recordMapGet (records : List (String × Option String)) (k : String) :
    Option (Option String) :=
  (records.reverse.find? (fun r => r.1 == k)).map (fun r => r.2)

/-- The inner loop `for pmid in batch: results.append(...)` of one chunk of
`convert_pmids_to_pmcids_df` (after the chunk's request succeeded). -/
def convertChunk (records : List (String × Option String)) (batch : List String) :
    List MappedId :=
  batch.map fun pmid => ⟨pmid, Option.join (recordMapGet records pmid)⟩

/-- `PubMedProcessor.convert_pmids_to_pmcids_df`: partition the pmids into
chunks of 200; `records k` is the record list of the (eventually successful)
response for chunk `k` — the inner retry loop repeats a failed chunk request
without bound, so only the successful response is modelled. -/
def convert_pmids_to_pmcids (records : Nat → List (String × Option String))
    (pmids : List String) : List MappedId :=
  ((chunksOf 200 pmids).enum.map fun kb => convertChunk (records kb.1) kb.2).flatten

/-- The credential pair placed in the `params` dict of each chunk request of
`convert_pmids_to_pmcids_df`: built from `self.email` / `self.api_key` once
per chunk, never drawn from the pool inside the method. -/
def convertCredTrace (p : PubMedProcessor) (pmids : List String) : List Cred :=
  (chunksOf 200 pmids).map fun _ => (p.email, p.api_key)

/-! ## get_pmc_class.py : PMCXMLEDownloaderSync -/

/-- Per-item outcome appended to `self.results`
(`{"pmcid": ..., "saved": "Yes"/"No", "error": ...}`). -/
structure Outcome where
  pmcid : String
  saved : Bool
  error : String
deriving DecidableEq, Repr

/-- Result of one `put_object` call, as seen by `_upload_to_s3`'s handler:
success, a `BotoCoreError`/`NoCredentialsError` (the only caught classes),
or any other exception (e.g. a `ClientError` such as access-denied). -/
inductive SinkResult where
  | ok : SinkResult
  | botoErr (msg : String) : SinkResult
  | otherErr : SinkResult
deriving DecidableEq, Repr

/-- Result of one `requests.get`/`session.get` attempt for a batch:
a 200 response whose XML parses into the given `<article>` sub-documents,
a non-200 status, or an exception (transport failure or XML parse error). -/
inductive HttpResult where
  | ok (articles : List String) : HttpResult
  | status (code : Nat) : HttpResult
  | exn : HttpResult
deriving DecidableEq, Repr

/-- `PMCXMLEDownloaderSync._upload_to_s3`: on success an outcome with
`saved = "Yes"` is appended; a `BotoCoreError`/`NoCredentialsError` is caught
and appended as a failed outcome; any other exception escapes the method
(`Except.error`). -/
def upload_to_s3 (sink : String → SinkResult) (pmcid : String) :
    Except Unit Outcome :=
  match sink pmcid with
  | .ok => .ok ⟨pmcid, true, ""⟩
  | .botoErr msg => .ok ⟨pmcid, false, msg⟩
  | .otherErr => .error ()

/-- The positional-association loop
`for i, article in enumerate(articles): pmcid = batch[i]; self._upload_to_s3(...)`.
Returns the outcomes appended to `self.results` during the loop and whether
the loop completed without raising: `batch[i]` out of range (IndexError) or
an uncaught upload exception aborts the loop, keeping the outcomes appended
so far. -/
def associate (sink : String → SinkResult) (batch : List String) :
    List String → Nat → List Outcome × Bool
  | [], _ => ([], true)
  | _ :: rest, i =>
    match batch[i]? with
    | none => ([], false)
    | some pmcid =>
      match upload_to_s3 sink pmcid with
      | .ok o =>
        let r := associate sink batch rest (i + 1)
        (o :: r.1, r.2)
      | .error _ => ([], false)

/-- The failure outcomes appended when a batch exhausts its retries. -/
def failedOutcomes (batch : List String) : List Outcome :=
  batch.map fun p => ⟨p, false, "Batch failed after retries"⟩

/-- The attempt loop of `PMCXMLEDownloaderSync._download_xml_batch`.
`attempt` is the 1-based attempt number used to index `resp`; `fuel` is the
number of retries still available after this attempt (`attempt < max_retries`
in the code).  On a 200 response the association loop runs; if it completes
the method returns, otherwise the raised exception is caught and the attempt
counts as failed.  A non-200 status or an exception also fails the attempt.
A failed final attempt appends `failedOutcomes`. -/
def downloadGo (resp : Nat → HttpResult) (sink : String → SinkResult)
    (batch : List String) : Nat → Nat → List Outcome
  | attempt, 0 =>
    match resp attempt with
    | .ok articles =>
      let r := associate sink batch articles 0
      if r.2 then r.1 else r.1 ++ failedOutcomes batch
    | _ => failedOutcomes batch
  | attempt, fuel + 1 =>
    match resp attempt with
    | .ok articles =>
      let r := associate sink batch articles 0
      if r.2 then r.1 else r.1 ++ downloadGo resp sink batch (attempt + 1) fuel
    | _ => downloadGo resp sink batch (attempt + 1) fuel

/-- `PMCXMLEDownloaderSync._download_xml_batch` for one batch: attempts run
for `attempt in range(1, max_retries + 1)`; with `max_retries = 0` the loop
body never runs and nothing is recorded. -/
def download_xml_batch (resp : Nat → HttpResult) (sink : String → SinkResult)
    (maxRetries : Nat) (batch : List String) : List Outcome :=
  match maxRetries with
  | 0 => []
  | m + 1 => downloadGo resp sink batch 1 m

/-- `PMCXMLEDownloaderSync.run`: partition `pmcids` into batches of
`batchSize` and process each batch in order, accumulating `self.results`.
`resp k` gives the per-attempt responses for batch `k`. -/
def run_sync (resp : Nat → Nat → HttpResult) (sink : String → SinkResult)
    (batchSize maxRetries : Nat) (pmcids : List String) : List Outcome :=
  ((chunksOf batchSize pmcids).enum.map fun kb =>
    download_xml_batch (resp kb.1) sink maxRetries kb.2).flatten

/-! ## get_pmc_class.py : PMCXMLEDownloader (async variant)

The async class keeps no `results` list at all: `_save_locally` catches every
exception and only prints.  The observables are the local save attempts
(pmcid, write succeeded?) and the number of HTTP attempts issued. -/

/-- The save tasks gathered on a successful association: one `_save_locally`
per article, writing `batch[i]` with success given by `fs`.  Only meaningful
when `articles.length ≤ batch.length` (otherwise task construction raises
before any save runs). -/
def asyncSaves (fs : String → Bool) (batch articles : List String) :
    List (String × Bool) :=
  (List.range articles.length).map fun i =>
    (batch.getD i "", fs (batch.getD i ""))

/-- The attempt loop of `PMCXMLEDownloader._download_xml_batch`: returns the
saves performed and the number of HTTP attempts issued.  A 200 response with
at most `batch.length` articles saves and returns; more articles raise an
IndexError while building the task list (no save runs), caught and retried.
A non-200 status returns immediately — no retry, no saves.  An exception is
retried up to the bound; exhaustion records nothing. -/
def asyncGo (resp : Nat → HttpResult) (fs : String → Bool)
    (batch : List String) : Nat → Nat → List (String × Bool) × Nat
  | attempt, 0 =>
    match resp attempt with
    | .ok articles =>
      if articles.length ≤ batch.length then (asyncSaves fs batch articles, 1)
      else ([], 1)
    | _ => ([], 1)
  | attempt, fuel + 1 =>
    match resp attempt with
    | .ok articles =>
      if articles.length ≤ batch.length then (asyncSaves fs batch articles, 1)
      else
        let r := asyncGo resp fs batch (attempt + 1) fuel
        (r.1, r.2 + 1)
    | .status _ => ([], 1)
    | .exn =>
      let r := asyncGo resp fs batch (attempt + 1) fuel
      (r.1, r.2 + 1)

/-- `PMCXMLEDownloader._download_xml_batch` for one batch. -/
def async_download_xml_batch (resp : Nat → HttpResult) (fs : String → Bool)
    (maxRetries : Nat) (batch : List String) : List (String × Bool) × Nat :=
  match maxRetries with
  | 0 => ([], 0)
  | m + 1 => asyncGo resp fs batch 1 m

/-! ## Concrete inputs used by witnesses and counterexamples -/

/-- Mocked search endpoint of the spec's scenario: offset 0 returns
`["p1","p2"]`, offset 2 returns `["p3"]`, offset 3 returns `[]`. -/
def scenarioPages : Nat → List String :=
  fun n => if n = 0 then ["p1", "p2"] else if n = 2 then ["p3"] else []

/-- A first page of 10000 ids (the `retmax` maximum), then exhaustion. -/
def hugePages : Nat → List String :=
  fun n => if n = 0 then List.replicate 10000 "p" else []

/-- A two-credential pool with distinct pairs. -/
def creds2 : List Cred := [("a", "1"), ("b", "2")]

/-- An upstream returning one page of one id, then exhaustion: the run
issues exactly two page requests. -/
def pages2 : Nat → List String := fun n => if n = 0 then ["x"] else []

/-- Processor constructed over `creds2` with initial pick 0. -/
def proc2 : PubMedProcessor := PubMedProcessor.init "m" creds2 0

/-- A mapper response carrying a record only for pmid "1". -/
def records0 : Nat → List (String × Option String) :=
  fun _ => [("1", some "PMC1")]

/-- A sink whose store always succeeds. -/
def sinkOk : String → SinkResult := fun _ => .ok

/-- A sink whose store always raises an exception outside the caught
`BotoCoreError`/`NoCredentialsError` classes. -/
def sinkOther : String → SinkResult := fun _ => .otherErr

/-- Every download attempt returns HTTP 200 with a single sub-document. -/
def respOneArticle : Nat → Nat → HttpResult := fun _ _ => .ok ["<a1>"]

/-- Every attempt for one batch returns HTTP 200 with a single sub-document. -/
def respC2 : Nat → HttpResult := fun _ => .ok ["<x>"]

/-- Every attempt for one batch returns HTTP 200 with a single sub-document
(count-mismatch input for the retry claim). -/
def respC3 : Nat → HttpResult := fun _ => .ok ["<y>"]

/-! ## Helper lemmas -/

/-- Flattening the chunks of `l` restores `l`, provided the chunk size is
positive and the fuel covers the list length. -/
theorem chunksOfGo_flatten {α : Type} (n : Nat) (hn : 0 < n) :
    ∀ (fuel : Nat) (l : List α), l.length ≤ fuel →
      (chunksOfGo n fuel l).flatten = l := by
  intro fuel
  induction fuel with
  | zero =>
    intro l hl
    have hnil : l = [] := List.eq_nil_of_length_eq_zero (Nat.le_zero.mp hl)
    subst hnil
    rfl
  | succ k ih =>
    intro l hl
    cases l with
    | nil => rfl
    | cons a t =>
      show (List.take n (a :: t) :: chunksOfGo n k ((a :: t).drop n)).flatten = a :: t
      rw [List.flatten_cons, ih ((a :: t).drop n)
        (by simp only [List.length_drop, List.length_cons] at hl ⊢; omega),
        List.take_append_drop]

/-- Entry-point form of `chunksOfGo_flatten`. -/
theorem chunksOf_flatten {α : Type} (n : Nat) (hn : 0 < n) (l : List α) :
    (chunksOf n l).flatten = l :=
  chunksOfGo_flatten n hn l.length l (Nat.le_refl _)

/-- C5: the id-mapping stage returns one MappedId per input pmid, in input
order (so same length and order), and a pmid that appears in no upstream
record comes back with an absent pmcid rather than an error. -/
theorem claim5_mapIds (records : Nat → List (String × Option String))
    (pmids : List String) :
    (convert_pmids_to_pmcids records pmids).map MappedId.pmid = pmids ∧
    ∀ q : String, (∀ k : Nat, ∀ r ∈ records k, r.1 ≠ q) →
      ∀ m ∈ convert_pmids_to_pmcids records pmids, m.pmid = q → m.pmcid = none := by
  constructor
  · unfold convert_pmids_to_pmcids
    rw [List.map_flatten, List.map_map]
    have h2 : List.map (List.map MappedId.pmid ∘ fun kb => convertChunk (records kb.1) kb.2)
        (chunksOf 200 pmids).enum = List.map Prod.snd (chunksOf 200 pmids).enum :=
      List.map_congr_left (fun kb _ => by
        simp [convertChunk, List.map_map, Function.comp_def])
    rw [h2, List.enum_map_snd, chunksOf_flatten 200 (by omega)]
  · intro q hq m hm hpmid
    unfold convert_pmids_to_pmcids at hm
    rw [List.mem_flatten] at hm
    obtain ⟨l, hl, hml⟩ := hm
    rw [List.mem_map] at hl
    obtain ⟨kb, hkb, rfl⟩ := hl
    unfold convertChunk at hml
    rw [List.mem_map] at hml
    obtain ⟨pid, hpid, rfl⟩ := hml
    have hpq : pid = q := hpmid
    subst hpq
    show Option.join (recordMapGet (records kb.1) pid) = none
    unfold recordMapGet
    have hfind : (records kb.1).reverse.find? (fun r => r.1 == pid) = none := by
      rw [List.find?_eq_none]
      intro r hr hbeq
      exact hq kb.1 r (List.mem_reverse.mp hr) (eq_of_beq hbeq)
    rw [hfind]
    rfl

/-- Witness for C5 at a concrete input: two pmids, a response mapping only
the first; the output preserves the order and the unmapped pmid "2" yields
an absent pmcid. -/
theorem claim5_mapIds_witness :
    (convert_pmids_to_pmcids records0 ["1", "2"]).map MappedId.pmid = ["1", "2"] ∧
    (⟨"2", none⟩ : MappedId).pmcid = none :=
  ⟨(claim5_mapIds records0 ["1", "2"]).1,
    (claim5_mapIds records0 ["1", "2"]).2 "2"
      (fun k r hr => by simp [records0] at hr; subst hr; decide)
      ⟨"2", none⟩ (by decide) rfl⟩

/-- C6: the search loop returns nothing past an empty page (normal
termination), appends all ids of a successful non-empty page below the
ceiling and continues at the advanced offset, and on the spec's mocked
scenario yields exactly `["p1","p2","p3"]` in order. -/
theorem claim6_pagination :
    (∀ (pages : Nat → List String) (fuel start : Nat),
      pages start = [] → fetchGo pages (fuel + 1) start = []) ∧
    (∀ (pages : Nat → List String) (fuel start : Nat),
      pages start ≠ [] → start + (pages start).length < MAX_PMID_LIMIT →
      fetchGo pages (fuel + 1) start =
        pages start ++ fetchGo pages fuel (start + (pages start).length)) ∧
    fetch_all_pmids scenarioPages = ["p1", "p2", "p3"] := by
  refine ⟨?_, ?_, ?_⟩
  · intro pages fuel start h
    simp [fetchGo, h]
  · intro pages fuel start h1 h2
    have hb : (pages start).isEmpty = false := by
      simp [List.isEmpty_iff, h1]
    simp [fetchGo, hb, Nat.not_le.mpr h2]
  · decide

/-- Witness for C6: the empty-page and append-advance branches instantiated
on the scenario endpoint, plus the scenario run itself. -/
theorem claim6_pagination_witness :
    fetchGo scenarioPages 7 3 = [] ∧
    fetchGo scenarioPages 5 0 =
      scenarioPages 0 ++ fetchGo scenarioPages 4 (0 + (scenarioPages 0).length) ∧
    fetch_all_pmids scenarioPages = ["p1", "p2", "p3"] :=
  ⟨claim6_pagination.1 scenarioPages 6 3 (by decide),
    claim6_pagination.2.1 scenarioPages 4 0 (by decide) (by decide),
    claim6_pagination.2.2⟩

/-- Head of the offsets trace: the first request of a run from `start` is
issued at offset `start` (whatever branch the loop takes). -/
theorem fetchOffsetsGo_head (pages : Nat → List String) (fuel s : Nat) :
    (fetchOffsetsGo pages (fuel + 1) s).head? = some s := by
  simp only [fetchOffsetsGo]
  split
  · rfl
  · split
    · rfl
    · rfl

/-- Every consecutive pair of request offsets satisfies: the earlier page
was non-empty, the later offset is the earlier plus that page's length,
hence strictly larger. -/
theorem fetchOffsetsGo_chain (pages : Nat → List String) :
    ∀ (fuel start : Nat),
      List.Chain' (fun a b => pages a ≠ [] ∧ b = a + (pages a).length ∧ a < b)
        (fetchOffsetsGo pages fuel start) := by
  intro fuel
  induction fuel with
  | zero => intro start; simp [fetchOffsetsGo]
  | succ k ih =>
    intro start
    simp only [fetchOffsetsGo]
    split
    · simp
    · split
      · simp
      · rename_i hne _
        rw [List.chain'_cons']
        refine ⟨?_, ih _⟩
        intro b hb
        cases k with
        | zero => simp [fetchOffsetsGo] at hb
        | succ k2 =>
          rw [fetchOffsetsGo_head] at hb
          have hbeq : b = start + (pages start).length := by
            simpa using hb.symm
          have hnil : pages start ≠ [] := by
            intro hcontra
            rw [hcontra] at hne
            simp at hne
          have hlen : 0 < (pages start).length :=
            List.length_pos.mpr hnil
          exact ⟨hnil, hbeq, by omega⟩

/-- C8: on the happy path the sequence of search-request offsets is
strictly increasing — each successor offset is the previous one plus the
length of the non-empty page returned there — so no two requests of one
run share an offset. -/
theorem claim8_offsets_strict (pages : Nat → List String) :
    List.Chain' (fun a b => pages a ≠ [] ∧ b = a + (pages a).length ∧ a < b)
      (fetchOffsets pages) ∧
    List.Pairwise (· < ·) (fetchOffsets pages) := by
  refine ⟨fetchOffsetsGo_chain pages 10000 0, ?_⟩
  have h := (fetchOffsetsGo_chain pages 10000 0).imp
    (fun a b hr => hr.2.2)
  exact List.chain'_iff_pairwise.mp h

/-- C9: the pagination ceiling is tested only after a page is appended, so
the loop's output can exceed the 9999 ceiling: an upstream whose first page
holds 10000 ids (the `retmax` maximum) makes `fetch_all_pmids` return all
10000 of them. -/
theorem claim9_ceiling_overshoot :
    (∀ (pages : Nat → List String) (fuel start : Nat),
      pages start ≠ [] → MAX_PMID_LIMIT ≤ start + (pages start).length →
      fetchGo pages (fuel + 1) start = pages start) ∧
    (fetch_all_pmids hugePages).length = 10000 ∧
    9999 < (fetch_all_pmids hugePages).length := by
  have hstep : ∀ (pages : Nat → List String) (fuel start : Nat),
      pages start ≠ [] → MAX_PMID_LIMIT ≤ start + (pages start).length →
      fetchGo pages (fuel + 1) start = pages start := by
    intro pages fuel start h1 h2
    have hb : (pages start).isEmpty = false := by
      simp [List.isEmpty_iff, h1]
    simp [fetchGo, hb, h2]
  have hlen0 : (hugePages 0).length = 10000 := by
    simp only [hugePages]
    rw [if_true, List.length_replicate]
  have hne : hugePages 0 ≠ [] := by
    intro h
    rw [h] at hlen0
    simp at hlen0
  have hceil : MAX_PMID_LIMIT ≤ 0 + (hugePages 0).length := by
    simp only [MAX_PMID_LIMIT]
    omega
  have hrun : fetch_all_pmids hugePages = List.replicate 10000 "p" := by
    show fetchGo hugePages (9999 + 1) 0 = _
    rw [hstep hugePages 9999 0 hne hceil]
    simp only [hugePages]
    rw [if_true]
  refine ⟨hstep, ?_, ?_⟩
  · rw [hrun, List.length_replicate]
  · rw [hrun, List.length_replicate]
    omega

/-- Witness for C9: the append-then-test branch instantiated at the
oversized first page. -/
theorem claim9_ceiling_overshoot_witness :
    fetchGo hugePages 10 0 = hugePages 0 ∧
    (fetch_all_pmids hugePages).length = 10000 := by
  have hlen0 : (hugePages 0).length = 10000 := by
    simp only [hugePages]
    rw [if_true, List.length_replicate]
  refine ⟨claim9_ceiling_overshoot.1 hugePages 9 0 ?_ ?_,
    claim9_ceiling_overshoot.2.1⟩
  · intro h
    rw [h] at hlen0
    simp at hlen0
  · simp only [MAX_PMID_LIMIT]
    omega

/-- C7: counterexample.  Over a pool of two distinct credentials, a run of
two page requests attaches the construction-time credential to both
requests; the spec's fresh-draw-per-request behaviour would attach two
different credentials.  The code's trace differs from the fresh-draw trace,
so requests do not each draw a fresh credential. -/
theorem claim7_counterexample :
    fetchCredTrace proc2 pages2 = [("a", "1"), ("a", "1")] ∧
    fetchCredTraceFresh creds2 (fun k => k) pages2 = [("a", "1"), ("b", "2")] ∧
    fetchCredTrace proc2 pages2 ≠ fetchCredTraceFresh creds2 (fun k => k) pages2 := by
  refine ⟨by decide, by decide, by decide⟩

/-- Every credential the page-request trace ever carries is the one stored
in the processor's fields. -/
theorem fetchCredTraceGo_const (p : PubMedProcessor) (pages : Nat → List String) :
    ∀ (fuel start : Nat), ∀ c ∈ fetchCredTraceGo p pages fuel start,
      c = (p.email, p.api_key) := by
  intro fuel
  induction fuel with
  | zero => intro start c hc; simp [fetchCredTraceGo] at hc
  | succ k ih =>
    intro start c hc
    simp only [fetchCredTraceGo] at hc
    split at hc
    · simp at hc
      exact hc
    · split at hc
      · simp at hc
        exact hc
      · rw [List.mem_cons] at hc
        rcases hc with hc | hc
        · exact hc
        · exact ih _ c hc

/-- C7 amended: the processor draws one credential pair at construction and
reuses it unchanged for every page request of `fetch_all_pmids` and every
chunk request of `convert_pmids_to_pmcids_df`; no request draws a fresh
credential from the pool. -/
theorem claim7_amended (p : PubMedProcessor) (pages : Nat → List String)
    (pmids : List String) :
    (∀ c ∈ fetchCredTrace p pages, c = (p.email, p.api_key)) ∧
    (∀ c ∈ convertCredTrace p pmids, c = (p.email, p.api_key)) := by
  constructor
  · intro c hc
    exact fetchCredTraceGo_const p pages 10000 0 c hc
  · intro c hc
    unfold convertCredTrace at hc
    rw [List.mem_map] at hc
    obtain ⟨b, hb, rfl⟩ := hc
    rfl

/-- Witness for C7 amended: both page requests of the concrete two-request
run carry the processor's stored pair, and so does the single convert-chunk
request. -/
theorem claim7_amended_witness :
    (("a", "1") : Cred) = (proc2.email, proc2.api_key) ∧
    (("a", "1") : Cred) = (proc2.email, proc2.api_key) :=
  ⟨(claim7_amended proc2 pages2 ["1"]).1 ("a", "1") (by decide),
    (claim7_amended proc2 pages2 ["1"]).2 ("a", "1") (by decide)⟩

/-- C1: the sync downloader violates the one-outcome-per-identifier
invariant.  Submitting ["PMC1","PMC2"] while every 200 response carries a
single sub-document records exactly one outcome: "PMC1" is persisted and
"PMC2" is silently dropped — no retry, no failure record. -/
theorem claim1_failing_eval :
    run_sync respOneArticle sinkOk 100 3 ["PMC1", "PMC2"] =
      [⟨"PMC1", true, ""⟩] ∧
    (run_sync respOneArticle sinkOk 100 3 ["PMC1", "PMC2"]).length ≠
      (["PMC1", "PMC2"] : List String).length := by
  refine ⟨by decide, by decide⟩

/-- C2: the sync downloader performs no sub-document-count verification.
On chunk ["A","B","C"] with a 200 response of one sub-document it records a
single persisted outcome and treats the attempt as success: no chunk-level
failure, no retry, no "count mismatch" outcome for any identifier. -/
theorem claim2_failing_eval :
    download_xml_batch respC2 sinkOk 3 ["A", "B", "C"] = [⟨"A", true, ""⟩] ∧
    (download_xml_batch respC2 sinkOk 3 ["A", "B", "C"]).all
      (fun o => o.saved) = true := by
  refine ⟨by decide, by decide⟩

/-- C3: counterexample.  A chunk of two identifiers whose every attempt
returns a 200 response with one sub-document is a count mismatch, yet the
downloader records a single persisted outcome and stops: the chunk is not
retried and no identifier receives a failed outcome, contradicting the
claimed mismatch handling. -/
theorem claim3_counterexample :
    (["<y>"] : List String).length ≠ (["a", "b"] : List String).length ∧
    download_xml_batch respC3 sinkOk 3 ["a", "b"] = [⟨"a", true, ""⟩] := by
  refine ⟨by decide, by decide⟩

/-- If every 200 response of a batch makes the association loop raise
(recording nothing), every attempt fails, so the attempt loop runs to
exhaustion and appends the per-identifier failure outcomes. -/
theorem downloadGo_fail (resp : Nat → HttpResult) (sink : String → SinkResult)
    (batch : List String)
    (h : ∀ a arts, resp a = .ok arts → associate sink batch arts 0 = ([], false)) :
    ∀ (fuel attempt : Nat),
      downloadGo resp sink batch attempt fuel = failedOutcomes batch := by
  intro fuel
  induction fuel with
  | zero =>
    intro attempt
    cases hr : resp attempt with
    | ok arts => simp [downloadGo, hr, h attempt arts hr]
    | status code => simp [downloadGo, hr]
    | exn => simp [downloadGo, hr]
  | succ k ih =>
    intro attempt
    cases hr : resp attempt with
    | ok arts => simp [downloadGo, hr, h attempt arts hr, ih]
    | status code => simp [downloadGo, hr, ih]
    | exn => simp [downloadGo, hr, ih]

/-- C3 amended: in the sync downloader a chunk whose every attempt ends in
a transport failure or a non-success status is retried up to the bound and,
after exhaustion, every identifier in the chunk receives a failed outcome —
all with the one reason string "Batch failed after retries" (no reason
distinguishes transport/status from count mismatch, and a mismatch is not
itself detected); the async variant gives up on a non-success status after
a single attempt, recording nothing. -/
theorem claim3_amended (resp : Nat → HttpResult) (sink : String → SinkResult)
    (m : Nat) (batch : List String) (code : Nat) (fs : String → Bool)
    (h : ∀ a arts, resp a ≠ .ok arts) :
    download_xml_batch resp sink (m + 1) batch = failedOutcomes batch ∧
    async_download_xml_batch (fun _ => .status code) fs (m + 1) batch = ([], 1) := by
  constructor
  · show downloadGo resp sink batch 1 m = failedOutcomes batch
    exact downloadGo_fail resp sink batch
      (fun a arts ha => absurd ha (h a arts)) m 1
  · show asyncGo (fun _ => .status code) fs batch 1 m = ([], 1)
    cases m with
    | zero => rfl
    | succ k => rfl

/-- Witness for C3 amended: three attempts all answering HTTP 500 exhaust
the bound and fail both identifiers with the single retry reason, while the
async variant stops after one attempt. -/
theorem claim3_amended_witness :
    download_xml_batch (fun _ => .status 500) sinkOk 3 ["a", "b"] =
      failedOutcomes ["a", "b"] ∧
    async_download_xml_batch (fun _ => .status 500) (fun _ => true) 3 ["a", "b"] =
      ([], 1) :=
  claim3_amended (fun _ => .status 500) sinkOk 2 ["a", "b"] 500 (fun _ => true)
    (fun _ _ hcontra => HttpResult.noConfusion hcontra)

/-- C4: counterexample.  A store failure outside the two caught exception
classes (e.g. an S3 ClientError such as access-denied) escapes
`_upload_to_s3` instead of being reported as a failed per-item outcome. -/
theorem claim4_counterexample :
    upload_to_s3 sinkOther "X123" = .error () := rfl

/-- C4 amended: the sync store operation catches exactly
`BotoCoreError`/`NoCredentialsError`, reporting those as failed per-item
outcomes and successes as persisted outcomes; any other store exception
escapes the store operation and is absorbed by the chunk attempt handler,
so it surfaces only as whole-chunk failure outcomes after the retry bound
is exhausted (hence still never process-fatal). -/
theorem claim4_amended (sink : String → SinkResult) (p msg : String)
    (rest arts : List String) (m : Nat) :
    (sink p = .ok → upload_to_s3 sink p = .ok ⟨p, true, ""⟩) ∧
    (sink p = .botoErr msg → upload_to_s3 sink p = .ok ⟨p, false, msg⟩) ∧
    (sink p = .otherErr → upload_to_s3 sink p = .error ()) ∧
    download_xml_batch (fun _ => .ok ("<a>" :: arts)) sinkOther (m + 1) (p :: rest) =
      failedOutcomes (p :: rest) := by
  refine ⟨fun h => by simp [upload_to_s3, h], fun h => by simp [upload_to_s3, h],
    fun h => by simp [upload_to_s3, h], ?_⟩
  show downloadGo _ sinkOther (p :: rest) 1 m = failedOutcomes (p :: rest)
  apply downloadGo_fail
  intro a bs ha
  have hbs : bs = "<a>" :: arts := by
    injection ha with h1
    exact h1.symm
  subst hbs
  simp [associate, upload_to_s3, sinkOther]

/-- Witness for C4 amended: the three store behaviours at concrete sinks,
and a chunk whose always-escaping store failure turns into whole-chunk
failure outcomes after the bound. -/
theorem claim4_amended_witness :
    upload_to_s3 sinkOk "X123" = .ok ⟨"X123", true, ""⟩ ∧
    upload_to_s3 sinkOther "X123" = .error () ∧
    download_xml_batch (fun _ => .ok ["<a>"]) sinkOther 2 ["X123", "Y9"] =
      failedOutcomes ["X123", "Y9"] :=
  ⟨(claim4_amended sinkOk "X123" "" [] [] 0).1 rfl,
    (claim4_amended sinkOther "X123" "" [] [] 0).2.2.1 rfl,
    (claim4_amended sinkOther "X123" "" ["Y9"] [] 1).2.2.2⟩

/-- C10: counterexample.  On a chunk of one identifier whose 200 response
carries two sub-documents, the out-of-range index is hit (the association
aborts), yet the error is caught by the attempt-level handler rather than
propagating unhandled, and outcomes ARE recorded: the pre-error persisted
outcome plus, after the retry bound, a failure outcome. -/
theorem claim10_counterexample :
    (associate sinkOk ["PMC9"] ["x", "y"] 0).2 = false ∧
    download_xml_batch (fun _ => .ok ["x", "y"]) sinkOk 1 ["PMC9"] =
      [⟨"PMC9", true, ""⟩, ⟨"PMC9", false, "Batch failed after retries"⟩] := by
  refine ⟨by decide, by decide⟩

/-- When the sink always succeeds and the response holds more sub-documents
than the chunk has identifiers, the association loop uploads every
identifier in order and then aborts on the out-of-range index. -/
theorem associate_overflow (sink : String → SinkResult) (hs : ∀ p, sink p = .ok)
    (batch : List String) :
    ∀ (arts : List String) (i : Nat), i ≤ batch.length →
      batch.length < i + arts.length →
      associate sink batch arts i =
        ((batch.drop i).map (fun p => ⟨p, true, ""⟩), false) := by
  intro arts
  induction arts with
  | nil =>
    intro i h1 h2
    simp at h2
    omega
  | cons a rest ih =>
    intro i h1 h2
    by_cases hi : i < batch.length
    · have hsome : batch[i]? = some batch[i] := List.getElem?_eq_getElem hi
      have hrec := ih (i + 1) (by omega) (by simp at h2 ⊢; omega)
      simp only [associate, hsome, upload_to_s3, hs batch[i], hrec]
      rw [List.drop_eq_getElem_cons hi, List.map_cons]
    · have hge : batch.length ≤ i := Nat.le_of_not_lt hi
      have hnone : batch[i]? = none := List.getElem?_eq_none hge
      have hdrop : batch.drop i = [] := List.drop_eq_nil_of_le hge
      simp [associate, hnone, hdrop]

/-- If every attempt's response is a 200 whose association aborts after
appending `outs`, then every attempt re-appends `outs` and the exhausted
loop finally appends the per-identifier failure outcomes. -/
theorem downloadGo_ok_assoc (resp : Nat → HttpResult) (sink : String → SinkResult)
    (batch : List String) (outs : List Outcome)
    (h : ∀ a arts, resp a = .ok arts → associate sink batch arts 0 = (outs, false))
    (hall : ∀ a, ∃ arts, resp a = .ok arts) :
    ∀ (fuel attempt : Nat),
      downloadGo resp sink batch attempt fuel =
        (List.replicate (fuel + 1) outs).flatten ++ failedOutcomes batch := by
  intro fuel
  induction fuel with
  | zero =>
    intro attempt
    obtain ⟨arts, hr⟩ := hall attempt
    simp [downloadGo, hr, h attempt arts hr]
  | succ k ih =>
    intro attempt
    obtain ⟨arts, hr⟩ := hall attempt
    simp only [downloadGo]
    rw [hr]
    simp only [h attempt arts hr, Bool.false_eq_true, if_false, ih (attempt + 1)]
    rw [List.replicate_succ _ (k + 1), List.flatten_cons, List.append_assoc]

/-- C10 amended: the positional association indexes `batch[i]` without a
bounds check, so a response with more sub-documents than identifiers does
raise an index-out-of-range error — but the attempt-level exception handler
catches it and treats the attempt as failed: outcomes already recorded for
in-range positions are kept, the chunk is retried (re-recording them), and
after the retry bound every identifier also receives a failure outcome. -/
theorem claim10_amended (sink : String → SinkResult) (batch arts : List String)
    (m : Nat) (hs : ∀ p, sink p = .ok) (hlen : batch.length < arts.length) :
    (associate sink batch arts 0).2 = false ∧
    download_xml_batch (fun _ => .ok arts) sink (m + 1) batch =
      (List.replicate (m + 1) (batch.map fun p => ⟨p, true, ""⟩)).flatten ++
        failedOutcomes batch := by
  have hassoc : associate sink batch arts 0 =
      (batch.map (fun p => ⟨p, true, ""⟩), false) := by
    have h0 := associate_overflow sink hs batch arts 0 (by omega) (by omega)
    simpa using h0
  constructor
  · rw [hassoc]
  · show downloadGo _ sink batch 1 m = _
    exact downloadGo_ok_assoc (fun _ => .ok arts) sink batch
      (batch.map fun p => ⟨p, true, ""⟩)
      (fun a bs hb => by
        have hbs : bs = arts := by
          injection hb with h1
          exact h1.symm
        subst hbs
        exact hassoc)
      (fun a => ⟨arts, rfl⟩) m 1

/-- Witness for C10 amended at a concrete overflowing chunk. -/
theorem claim10_amended_witness :
    (associate sinkOk ["P"] ["x", "y"] 0).2 = false ∧
    download_xml_batch (fun _ => .ok ["x", "y"]) sinkOk 1 ["P"] =
      (List.replicate 1 (["P"].map fun p => (⟨p, true, ""⟩ : Outcome))).flatten ++
        failedOutcomes ["P"] :=
  claim10_amended sinkOk ["P"] ["x", "y"] 0 (fun p => rfl) (by decide)

end PMPipeline
